import Mathlib

/-!
Verification of the workspace, toolbox and control-bar logic of the
sequential-workflow-designer repository, shallowly embedded in Lean 4.
Arithmetic on viewport coordinates is embedded over the rationals
(exact arithmetic); mutable object state is passed explicitly.
-/

namespace SWD

/-- Modelled from the spec: the Vector class of core/vector.ts (not in
the provided sources) with x, y and the component-wise arithmetic helpers
used by the workspace, per the 2D vector math utility of the spec. -/
@[ext]
structure Vector where
  x : ℚ
  y : ℚ
deriving DecidableEq, Repr

def Vector.add (v w : Vector) : Vector := ⟨v.x + w.x, v.y + w.y⟩

def Vector.subtract (v w : Vector) : Vector := ⟨v.x - w.x, v.y - w.y⟩

def Vector.multiplyByScalar (v : Vector) (s : ℚ) : Vector := ⟨v.x * s, v.y * s⟩

def Vector.divideByScalar (v : Vector) (s : ℚ) : Vector := ⟨v.x / s, v.y / s⟩

/-- The viewport part of the Workspace state: `position` and `scale`
fields of `Workspace`, plus whether `onViewPortChanged` was forwarded
by the operation under study. -/
structure ViewState where
  position : Vector
  scale : ℚ
  viewPortChangedFired : Bool
deriving DecidableEq, Repr

/-- Embedding of `Workspace.onWheel`.  Inputs: the wheel event fields
`pageX`, `pageY`, `deltaY`, and the canvas origin `viewPos`
(`this.view.getPosition()`).  Mirrors the source line by line:
mousePoint, mouseRealPoint, wheelDelta, newScale, then the position
and scale update and the viewport-changed event. -/
def Workspace.onWheel (s : ViewState) (pageX pageY deltaY : ℚ) (viewPos : Vector) :
    ViewState :=
  let mousePoint := (Vector.mk pageX pageY).subtract viewPos
  let mouseRealPoint :=
    (mousePoint.divideByScalar s.scale).subtract (s.position.divideByScalar s.scale)
  let wheelDelta : ℚ := if deltaY > 0 then -(1/10) else 1/10
  let newScale := min (max (s.scale + wheelDelta) (1/10)) 3
  { position := (mouseRealPoint.multiplyByScalar (-newScale)).add mousePoint
    scale := newScale
    viewPortChangedFired := true }

/-- Embedding of `Workspace.center`.  `size` is `view.getSize()`,
`compWidth`/`compHeight` are the main component view dimensions,
`hasMain` is whether `this.mainComponent` is set. -/
def Workspace.center (s : ViewState) (size : Vector) (compWidth compHeight : ℚ)
    (hasMain : Bool) : ViewState :=
  if hasMain then
    { position := ⟨max 0 ((size.x - compWidth) / 2), max 20 ((size.y - compHeight) / 2)⟩
      scale := 1
      viewPortChangedFired := true }
  else s

/-- Fold a list of wheel events (pageX, pageY, deltaY, viewPos) through
`Workspace.onWheel`, for claims about repeated wheel events. -/
def Workspace.applyWheels (s : ViewState) (events : List (ℚ × ℚ × ℚ × Vector)) :
    ViewState :=
  events.foldl (fun st e => Workspace.onWheel st e.1 e.2.1 e.2.2.1 e.2.2.2) s

/-- C1: zoom-to-cursor invariant of `Workspace.onWheel`.  With the old
transform, mouseRealPoint = mousePoint/scale - position/scale; after the
update, mouseRealPoint * newScale + newPosition = mousePoint exactly. -/
theorem C1_zoom_to_cursor (s : ViewState) (pageX pageY deltaY : ℚ) (viewPos : Vector) :
    let mousePoint := (Vector.mk pageX pageY).subtract viewPos
    let mouseRealPoint :=
      (mousePoint.divideByScalar s.scale).subtract (s.position.divideByScalar s.scale)
    let s2 := Workspace.onWheel s pageX pageY deltaY viewPos
    (mouseRealPoint.multiplyByScalar s2.scale).add s2.position = mousePoint := by
  simp only [Workspace.onWheel, Vector.subtract, Vector.divideByScalar,
    Vector.multiplyByScalar, Vector.add]
  apply Vector.ext <;> ring

/-- Scale bounds after a single wheel event: the clamped scale lands in
[0.1, 3] whatever the starting scale and delta. -/
theorem Workspace.onWheel_scale_bounds (s : ViewState) (pageX pageY deltaY : ℚ)
    (viewPos : Vector) :
    1/10 ≤ (Workspace.onWheel s pageX pageY deltaY viewPos).scale ∧
      (Workspace.onWheel s pageX pageY deltaY viewPos).scale ≤ 3 := by
  constructor
  · exact le_min (le_max_right _ _) (by norm_num)
  · exact min_le_right _ _

/-- Scale bounds are preserved by any list of wheel events. -/
theorem Workspace.applyWheels_scale_bounds (events : List (ℚ × ℚ × ℚ × Vector))
    (s : ViewState) (h1 : 1/10 ≤ s.scale) (h2 : s.scale ≤ 3) :
    1/10 ≤ (Workspace.applyWheels s events).scale ∧
      (Workspace.applyWheels s events).scale ≤ 3 := by
  induction events generalizing s with
  | nil => exact ⟨h1, h2⟩
  | cons e es ih =>
      simp only [Workspace.applyWheels, List.foldl_cons] at *
      exact ih _ (Workspace.onWheel_scale_bounds s e.1 e.2.1 e.2.2.1 e.2.2.2).1
        (Workspace.onWheel_scale_bounds s e.1 e.2.1 e.2.2.1 e.2.2.2).2

/-- Test fixture: a viewport state with scale 1 at the origin. -/
def testView : ViewState := ⟨⟨0, 0⟩, 1, false⟩

/-- C4: for a starting scale in [0.1, 3], the new scale computed by
`Workspace.onWheel` is the old scale plus 0.1 when deltaY <= 0, minus 0.1
when deltaY > 0, clamped to [0.1, 3]; and the scale stays in [0.1, 3]
after any number of repeated wheel events of any magnitude. -/
theorem C4_wheel_scale_clamped (s : ViewState) (pageX pageY deltaY : ℚ)
    (viewPos : Vector) (events : List (ℚ × ℚ × ℚ × Vector))
    (h1 : 1/10 ≤ s.scale) (h2 : s.scale ≤ 3) :
    ((Workspace.onWheel s pageX pageY deltaY viewPos).scale
        = min (max (s.scale + (if deltaY ≤ 0 then 1/10 else -(1/10))) (1/10)) 3)
    ∧ 1/10 ≤ (Workspace.onWheel s pageX pageY deltaY viewPos).scale
    ∧ (Workspace.onWheel s pageX pageY deltaY viewPos).scale ≤ 3
    ∧ 1/10 ≤ (Workspace.applyWheels s events).scale
    ∧ (Workspace.applyWheels s events).scale ≤ 3 := by
  refine ⟨?_, (Workspace.onWheel_scale_bounds s pageX pageY deltaY viewPos).1,
    (Workspace.onWheel_scale_bounds s pageX pageY deltaY viewPos).2,
    (Workspace.applyWheels_scale_bounds events s h1 h2).1,
    (Workspace.applyWheels_scale_bounds events s h1 h2).2⟩
  simp only [Workspace.onWheel]
  rcases le_or_lt deltaY 0 with h | h
  · rw [if_pos h, if_neg (not_lt.mpr h)]
  · rw [if_neg (not_le.mpr h), if_pos h]

/-- Witness for C4 at scale 1 with one concrete wheel event. -/
theorem C4_wheel_scale_clamped_witness :
    (1/10 ≤ testView.scale ∧ testView.scale ≤ 3)
    ∧ ((Workspace.onWheel testView 5 7 2 ⟨1, 1⟩).scale
        = min (max (testView.scale + (if (2:ℚ) ≤ 0 then 1/10 else -(1/10))) (1/10)) 3
      ∧ 1/10 ≤ (Workspace.onWheel testView 5 7 2 ⟨1, 1⟩).scale
      ∧ (Workspace.onWheel testView 5 7 2 ⟨1, 1⟩).scale ≤ 3
      ∧ 1/10 ≤ (Workspace.applyWheels testView [(5, 7, 2, ⟨1, 1⟩)]).scale
      ∧ (Workspace.applyWheels testView [(5, 7, 2, ⟨1, 1⟩)]).scale ≤ 3) :=
  ⟨⟨by norm_num [testView], by norm_num [testView]⟩,
    C4_wheel_scale_clamped testView 5 7 2 ⟨1, 1⟩ [(5, 7, 2, ⟨1, 1⟩)]
      (by norm_num [testView]) (by norm_num [testView])⟩

/-- C10: with a rendered main component, `Workspace.center` sets the scale
to exactly 1, a position with x at least 0 and y at least 20, and fires the
viewport-changed event. -/
theorem C10_center (s : ViewState) (size : Vector) (compWidth compHeight : ℚ)
    (hasMain : Bool) (h : hasMain = true) :
    (Workspace.center s size compWidth compHeight hasMain).scale = 1
    ∧ 0 ≤ (Workspace.center s size compWidth compHeight hasMain).position.x
    ∧ 20 ≤ (Workspace.center s size compWidth compHeight hasMain).position.y
    ∧ (Workspace.center s size compWidth compHeight hasMain).viewPortChangedFired
        = true := by
  subst h
  exact ⟨rfl, le_max_left _ _, le_max_left _ _, rfl⟩

/-- Witness for C10 on a concrete state and sizes. -/
theorem C10_center_witness :
    (true : Bool) = true
    ∧ ((Workspace.center testView ⟨100, 100⟩ 40 30 true).scale = 1
      ∧ 0 ≤ (Workspace.center testView ⟨100, 100⟩ 40 30 true).position.x
      ∧ 20 ≤ (Workspace.center testView ⟨100, 100⟩ 40 30 true).position.y
      ∧ (Workspace.center testView ⟨100, 100⟩ 40 30 true).viewPortChangedFired = true) :=
  ⟨rfl, C10_center testView ⟨100, 100⟩ 40 30 true rfl⟩

/-- Modelled from the spec: the visual state of a step component
(`StepComponentState` lives in `workspace/component.ts`, which is not part
of the provided sources; the workspace uses its `default` and `selected`
members). -/
inductive StepComponentState
  | default
  | selected
deriving DecidableEq, Repr

/-- Selection-relevant Workspace state: the visual state of every step
component (components named by Nat identities; `setState` is modelled as
updating this map), the `selectedStep` field, and the forwarded
`onSelectedStepChanged` events in order. -/
structure SelectionState where
  compStates : Nat → StepComponentState
  selectedStep : Option Nat
  selectedStepChangedEvents : List (Option Nat)

/-- Embedding of `Workspace.selectStep`: reset the previously selected
component to default (if any), record the new selection, set its state to
selected, and forward the selection-changed event. -/
def Workspace.selectStep (s : SelectionState) (step : Nat) : SelectionState :=
  let s1 := match s.selectedStep with
    | some prev => { s with compStates := Function.update s.compStates prev .default }
    | none => s
  { s1 with
    selectedStep := some step
    compStates := Function.update s1.compStates step .selected
    selectedStepChangedEvents := s1.selectedStepChangedEvents ++ [some step] }

/-- Embedding of `Workspace.clearSelectedStep`: if a step is selected,
reset it to default, clear the selection and forward the event; otherwise
do nothing. -/
def Workspace.clearSelectedStep (s : SelectionState) : SelectionState :=
  match s.selectedStep with
  | some prev =>
      { compStates := Function.update s.compStates prev .default
        selectedStep := none
        selectedStepChangedEvents := s.selectedStepChangedEvents ++ [none] }
  | none => s

/-- An operation on the selection: a `selectStep` or a `clearSelectedStep`
call. -/
inductive SelOp
  | select (step : Nat)
  | clear

/-- Apply a list of selection operations in order. -/
def applySelOps (s : SelectionState) (ops : List SelOp) : SelectionState :=
  ops.foldl
    (fun st op => match op with
      | SelOp.select b => Workspace.selectStep st b
      | SelOp.clear => Workspace.clearSelectedStep st) s

/-- The selection invariant: every component in the selected visual state
is the recorded `selectedStep`. -/
def SelInv (s : SelectionState) : Prop :=
  ∀ c, s.compStates c = StepComponentState.selected → s.selectedStep = some c

/-- At most one component is in the selected visual state. -/
def atMostOneSelected (s : SelectionState) : Prop :=
  ∀ c d, s.compStates c = StepComponentState.selected →
    s.compStates d = StepComponentState.selected → c = d

/-- The selectStep operation preserves the selection invariant. -/
theorem Workspace.selectStep_selInv (s : SelectionState) (b : Nat) (h : SelInv s) :
    SelInv (Workspace.selectStep s b) := by
  intro c hc
  simp only [Workspace.selectStep] at hc ⊢
  by_cases hcb : c = b
  · subst hcb; rfl
  · exfalso
    rw [Function.update_noteq hcb] at hc
    cases hs : s.selectedStep with
    | none =>
        rw [hs] at hc
        simp only at hc
        exact Option.noConfusion (hs.symm.trans (h c hc))
    | some prev =>
        rw [hs] at hc
        simp only at hc
        by_cases hcp : c = prev
        · subst hcp
          rw [Function.update_same] at hc
          exact StepComponentState.noConfusion hc
        · rw [Function.update_noteq hcp] at hc
          have := h c hc
          rw [hs] at this
          exact hcp (Option.some.inj this.symm)

/-- The clearSelectedStep operation preserves the selection invariant. -/
theorem Workspace.clearSelectedStep_selInv (s : SelectionState) (h : SelInv s) :
    SelInv (Workspace.clearSelectedStep s) := by
  intro c hc
  simp only [Workspace.clearSelectedStep] at hc ⊢
  cases hs : s.selectedStep with
  | none => rw [hs] at hc ⊢; exact hs ▸ h c hc
  | some prev =>
      rw [hs] at hc
      simp only at hc
      exfalso
      by_cases hcp : c = prev
      · subst hcp
        rw [Function.update_same] at hc
        exact StepComponentState.noConfusion hc
      · rw [Function.update_noteq hcp] at hc
        have := h c hc
        rw [hs] at this
        exact hcp (Option.some.inj this.symm)

/-- Any sequence of selection operations preserves the invariant. -/
theorem applySelOps_selInv (ops : List SelOp) (s : SelectionState) (h : SelInv s) :
    SelInv (applySelOps s ops) := by
  induction ops generalizing s with
  | nil => exact h
  | cons op ops ih =>
      simp only [applySelOps, List.foldl_cons] at *
      cases op with
      | select b => exact ih _ (Workspace.selectStep_selInv s b h)
      | clear => exact ih _ (Workspace.clearSelectedStep_selInv s h)

/-- C3: `Workspace.selectStep B` puts B in the selected state and resets a
previously selected A to default; after any sequence of
selectStep/clearSelectedStep calls from an invariant-respecting state, at
most one component is in the selected state. -/
theorem C3_exclusive_selection (s : SelectionState) (b : Nat) (ops : List SelOp)
    (hinv : SelInv s) :
    (Workspace.selectStep s b).compStates b = StepComponentState.selected
    ∧ (∀ a, s.selectedStep = some a → a ≠ b →
        (Workspace.selectStep s b).compStates a = StepComponentState.default)
    ∧ atMostOneSelected (applySelOps s ops) := by
  refine ⟨?_, ?_, ?_⟩
  · simp only [Workspace.selectStep]
    exact Function.update_same b _ _
  · intro a ha hab
    simp only [Workspace.selectStep, ha]
    rw [Function.update_noteq hab, Function.update_same]
  · intro c d hc hd
    have hi := applySelOps_selInv ops s hinv
    exact Option.some.inj ((hi c hc).symm.trans (hi d hd))

/-- A selection state with every component in the default state and no
selection. -/
def allDefaultSelection : SelectionState :=
  ⟨fun _ => StepComponentState.default, none, []⟩

/-- Witness for C3 from the all-default state with concrete operations. -/
theorem C3_exclusive_selection_witness :
    SelInv allDefaultSelection
    ∧ ((Workspace.selectStep allDefaultSelection 1).compStates 1
          = StepComponentState.selected
      ∧ (∀ a, allDefaultSelection.selectedStep = some a → a ≠ 1 →
          (Workspace.selectStep allDefaultSelection 1).compStates a
            = StepComponentState.default)
      ∧ atMostOneSelected (applySelOps allDefaultSelection
          [SelOp.select 2, SelOp.select 3, SelOp.clear, SelOp.select 1])) :=
  have hinv : SelInv allDefaultSelection := fun _ h => StepComponentState.noConfusion h
  ⟨hinv, C3_exclusive_selection allDefaultSelection 1
    [SelOp.select 2, SelOp.select 3, SelOp.clear, SelOp.select 1] hinv⟩

/-- JavaScript `Array.prototype.indexOf`: the index of the first
occurrence, or -1 when the element is absent. -/
def jsIndexOf (l : List Nat) (a : Nat) : Int :=
  if a ∈ l then (l.indexOf a : Int) else -1

/-- JavaScript `Array.prototype.splice(start, 1)`: a negative start counts
from the end and is clamped at 0, a start past the end is clamped to the
length; at most one element at the resulting index is removed. -/
def jsSplice1 (l : List Nat) (start : Int) : List Nat :=
  let actualStart : Nat :=
    if start < 0 then (max ((l.length : Int) + start) 0).toNat
    else (min start (l.length : Int)).toNat
  l.take actualStart ++ l.drop (actualStart + 1)

/-- Removal-relevant Workspace state: the `step` of the selected
component (if any), the `steps` list of its `parentSequence`, and whether
`onChanged` has been forwarded.  Steps are named by Nat identities. -/
structure RemovalState where
  selectedStep : Option Nat
  parentSteps : List Nat
  changedFired : Bool
deriving DecidableEq, Repr

/-- Embedding of `Workspace.removeSelectedStep` followed by
`notifyChanged`: when a step is selected, splice it out of the parent
sequence at its `indexOf` position, then `notifyChanged` clears the
selection, re-renders and forwards `onChanged`; otherwise do nothing. -/
def Workspace.removeSelectedStep (s : RemovalState) : RemovalState :=
  match s.selectedStep with
  | none => s
  | some st =>
      let index := jsIndexOf s.parentSteps st
      { selectedStep := none
        parentSteps := jsSplice1 s.parentSteps index
        changedFired := true }

/-- Splicing at the index of a present element erases exactly that
position. -/
theorem jsSplice1_jsIndexOf_of_mem (l : List Nat) (a : Nat) (h : a ∈ l) :
    jsSplice1 l (jsIndexOf l a) =
      l.take (l.indexOf a) ++ l.drop (l.indexOf a + 1) := by
  have hlt : l.indexOf a < l.length := List.indexOf_lt_length.mpr h
  simp only [jsIndexOf, if_pos h, jsSplice1]
  have hnn : ¬((l.indexOf a : Int) < 0) := by omega
  rw [if_neg hnn]
  have hmin : (min ((l.indexOf a : Int)) ((l.length : Int))).toNat = l.indexOf a := by
    rw [min_eq_left (by exact_mod_cast hlt.le)]
    exact Int.toNat_natCast _
  rw [hmin]

/-- C2: with a selected step that occurs in its parent sequence,
`removeSelectedStep` removes exactly the entry at the index of the
selected step, keeps every other entry in order, clears the selection and
fires the change event. -/
theorem C2_remove_selected_step (s : RemovalState) (st : Nat)
    (h1 : s.selectedStep = some st) (h2 : st ∈ s.parentSteps) :
    (Workspace.removeSelectedStep s).parentSteps
        = s.parentSteps.take (s.parentSteps.indexOf st)
          ++ s.parentSteps.drop (s.parentSteps.indexOf st + 1)
    ∧ s.parentSteps[s.parentSteps.indexOf st]? = some st
    ∧ (Workspace.removeSelectedStep s).parentSteps.length + 1
        = s.parentSteps.length
    ∧ (Workspace.removeSelectedStep s).selectedStep = none
    ∧ (Workspace.removeSelectedStep s).changedFired = true := by
  have hlt : s.parentSteps.indexOf st < s.parentSteps.length :=
    List.indexOf_lt_length.mpr h2
  simp only [Workspace.removeSelectedStep, h1]
  refine ⟨jsSplice1_jsIndexOf_of_mem _ _ h2, List.getElem?_indexOf h2, ?_, trivial, trivial⟩
  rw [jsSplice1_jsIndexOf_of_mem _ _ h2, List.length_append, List.length_take,
    List.length_drop]
  omega

/-- Witness for C2 on a concrete sequence. -/
theorem C2_remove_selected_step_witness :
    ((⟨some 5, [3, 5, 8], false⟩ : RemovalState).selectedStep = some 5
      ∧ 5 ∈ (⟨some 5, [3, 5, 8], false⟩ : RemovalState).parentSteps)
    ∧ ((Workspace.removeSelectedStep ⟨some 5, [3, 5, 8], false⟩).parentSteps
        = [3, 5, 8].take ([3, 5, 8].indexOf 5) ++ [3, 5, 8].drop ([3, 5, 8].indexOf 5 + 1)
      ∧ [3, 5, 8][[3, 5, 8].indexOf 5]? = some 5
      ∧ (Workspace.removeSelectedStep ⟨some 5, [3, 5, 8], false⟩).parentSteps.length + 1
          = [3, 5, 8].length
      ∧ (Workspace.removeSelectedStep ⟨some 5, [3, 5, 8], false⟩).selectedStep = none
      ∧ (Workspace.removeSelectedStep ⟨some 5, [3, 5, 8], false⟩).changedFired = true) :=
  ⟨⟨rfl, by decide⟩, C2_remove_selected_step ⟨some 5, [3, 5, 8], false⟩ 5 rfl (by decide)⟩

/-- C9: with a selected step absent from its recorded parent sequence,
`indexOf` yields -1 and `splice(-1, 1)` removes the last element of a
non-empty sequence instead of removing nothing. -/
theorem C9_remove_absent_step (s : RemovalState) (st : Nat)
    (h1 : s.selectedStep = some st) (h2 : st ∉ s.parentSteps)
    (h3 : s.parentSteps ≠ []) :
    jsIndexOf s.parentSteps st = -1
    ∧ (Workspace.removeSelectedStep s).parentSteps = s.parentSteps.dropLast
    ∧ (Workspace.removeSelectedStep s).parentSteps.length + 1
        = s.parentSteps.length := by
  have hioz : jsIndexOf s.parentSteps st = -1 := by simp [jsIndexOf, h2]
  have hlen : 0 < s.parentSteps.length := List.length_pos.mpr h3
  have hsplice : jsSplice1 s.parentSteps (-1) = s.parentSteps.dropLast := by
    simp only [jsSplice1, if_pos (by norm_num : (-1 : Int) < 0)]
    have hmax : (max ((s.parentSteps.length : Int) + -1) 0).toNat
        = s.parentSteps.length - 1 := by omega
    rw [hmax, List.dropLast_eq_take]
    have hdrop : s.parentSteps.drop (s.parentSteps.length - 1 + 1) = [] := by
      apply List.drop_eq_nil_of_le
      omega
    rw [hdrop, List.append_nil]
  refine ⟨hioz, ?_, ?_⟩
  · simp only [Workspace.removeSelectedStep, h1, hioz, hsplice]
  · simp only [Workspace.removeSelectedStep, h1, hioz, hsplice,
      List.length_dropLast]
    omega

/-- Witness for C9: selected step 9 absent from [3, 5, 8]; the 8 is
removed. -/
theorem C9_remove_absent_step_witness :
    ((⟨some 9, [3, 5, 8], false⟩ : RemovalState).selectedStep = some 9
      ∧ 9 ∉ (⟨some 9, [3, 5, 8], false⟩ : RemovalState).parentSteps
      ∧ (⟨some 9, [3, 5, 8], false⟩ : RemovalState).parentSteps ≠ [])
    ∧ (jsIndexOf [3, 5, 8] 9 = -1
      ∧ (Workspace.removeSelectedStep ⟨some 9, [3, 5, 8], false⟩).parentSteps
          = [3, 5, 8].dropLast
      ∧ (Workspace.removeSelectedStep ⟨some 9, [3, 5, 8], false⟩).parentSteps.length + 1
          = [3, 5, 8].length) :=
  ⟨⟨rfl, by decide, by decide⟩,
    C9_remove_absent_step ⟨some 9, [3, 5, 8], false⟩ 9 rfl (by decide) (by decide)⟩

/-- Control-bar state relevant to the delete button: the context
selection, the parent sequence the modifier would act on, and whether the
definition-changed event fired. -/
structure ControlBarState where
  selectedStep : Option Nat
  parentSequence : List Nat
  definitionChangedFired : Bool
deriving DecidableEq, Repr

/-- Embedding of `ControlBar.onDeleteButtonClicked`.  The
`SequenceModifier.deleteStep` collaborator is not part of the provided
sources, so it is taken as a parameter; the guard only calls it when a
step is selected. -/
def ControlBar.onDeleteButtonClicked (deleteStep : Nat → List Nat → List Nat)
    (s : ControlBarState) : ControlBarState :=
  match s.selectedStep with
  | none => s
  | some st =>
      { selectedStep := none
        parentSequence := deleteStep st s.parentSequence
        definitionChangedFired := true }

/-- C8: with no selection, both the delete-button handler and
`removeSelectedStep` change nothing and fire nothing, for any sequence
modifier. -/
theorem C8_delete_no_selection (s : RemovalState) (cb : ControlBarState)
    (deleteStep : Nat → List Nat → List Nat)
    (h1 : s.selectedStep = none) (h2 : cb.selectedStep = none) :
    Workspace.removeSelectedStep s = s
    ∧ ControlBar.onDeleteButtonClicked deleteStep cb = cb := by
  constructor
  · simp only [Workspace.removeSelectedStep, h1]
  · simp only [ControlBar.onDeleteButtonClicked, h2]

/-- Witness for C8 on concrete unselected states. -/
theorem C8_delete_no_selection_witness :
    ((⟨none, [1, 2], false⟩ : RemovalState).selectedStep = none
      ∧ (⟨none, [1, 2], false⟩ : ControlBarState).selectedStep = none)
    ∧ (Workspace.removeSelectedStep ⟨none, [1, 2], false⟩
        = (⟨none, [1, 2], false⟩ : RemovalState)
      ∧ ControlBar.onDeleteButtonClicked (fun _ l => l) ⟨none, [1, 2], false⟩
        = (⟨none, [1, 2], false⟩ : ControlBarState)) :=
  ⟨⟨rfl, rfl⟩,
    C8_delete_no_selection ⟨none, [1, 2], false⟩ ⟨none, [1, 2], false⟩
      (fun _ l => l) rfl rfl⟩

/-- A behavior the workspace can hand to the behavior controller on
mouse-down. -/
inductive WorkspaceBehavior
  | selectStep (component : Nat)
  | moveViewPort
deriving DecidableEq, Repr

/-- Embedding of `Workspace.onMouseDown`.  `hasMain` is whether
`this.mainComponent` is set, `button` the event button, `findStep` the
result of `mainComponent.findStepComponent(e.target)` (the hit-test lives
in the component tree, outside the provided sources, so it is taken as an
input).  Returns the behavior started on the controller, if any. -/
def Workspace.onMouseDown (hasMain isReadonly : Bool) (button : Nat)
    (findStep : Option Nat) : Option WorkspaceBehavior :=
  if hasMain = false then none
  else
    let isNotScrollClick : Prop := button ≠ 1
    let clickedStep : Option Nat :=
      if isNotScrollClick ∧ isReadonly = false then findStep else none
    match clickedStep with
    | some c => some (WorkspaceBehavior.selectStep c)
    | none => some WorkspaceBehavior.moveViewPort

/-- C5: with the main component rendered, select-step is started exactly
when the button is not the middle one, the workspace is not readonly, and
the hit-test finds a step component; in every other case move-viewport is
started. -/
theorem C5_mouse_down_dispatch (hasMain isReadonly : Bool) (button : Nat)
    (findStep : Option Nat) (h : hasMain = true) :
    ((∃ c, Workspace.onMouseDown hasMain isReadonly button findStep
          = some (WorkspaceBehavior.selectStep c) ∧ findStep = some c)
      ↔ (button ≠ 1 ∧ isReadonly = false ∧ findStep.isSome = true))
    ∧ (Workspace.onMouseDown hasMain isReadonly button findStep
          = some WorkspaceBehavior.moveViewPort
      ↔ ¬(button ≠ 1 ∧ isReadonly = false ∧ findStep.isSome = true)) := by
  subst h
  by_cases hb : button = 1 <;>
    cases isReadonly <;>
      cases findStep <;>
        simp [Workspace.onMouseDown, hb]

/-- Witness for C5: primary button, not readonly, hit-test returns step
7. -/
theorem C5_mouse_down_dispatch_witness :
    (true : Bool) = true
    ∧ (((∃ c, Workspace.onMouseDown true false 0 (some 7)
            = some (WorkspaceBehavior.selectStep c) ∧ (some 7 : Option Nat) = some c)
        ↔ ((0 : Nat) ≠ 1 ∧ (false : Bool) = false ∧ (some 7 : Option Nat).isSome = true))
      ∧ (Workspace.onMouseDown true false 0 (some 7)
            = some WorkspaceBehavior.moveViewPort
        ↔ ¬((0 : Nat) ≠ 1 ∧ (false : Bool) = false
            ∧ (some 7 : Option Nat).isSome = true))) :=
  ⟨rfl, C5_mouse_down_dispatch true false 0 (some 7) rfl⟩

/-- A workflow step: unique id, type tag and properties (the latter two
abstracted as Nat values; a toolbox template `StepDefinition` has the same
shape). -/
structure Step where
  id : Nat
  type : Nat
  properties : Nat
deriving DecidableEq, Repr

/-- Toolbox-relevant designer state: the `isReadonly` flag of the designer
state and the counter backing `Uid.next` (modelled from the spec:
`Uid.next` from core/uid.ts, not in the provided sources, yields a fresh
unique identifier on each call). -/
structure ToolboxState where
  isReadonly : Bool
  nextUid : Nat
deriving DecidableEq, Repr

/-- The drag-new-step behavior a toolbox item starts: the cloned step and
the pointer position it is anchored at. -/
structure DragStepBehavior where
  step : Step
  position : Vector
deriving DecidableEq, Repr

/-- Embedding of `createStep`: deep-clone the template (a value copy of
the record) and assign the next unique id; returns the new step together
with the advanced uid counter. -/
def createStep (template : Step) (uid : Nat) : Step × Nat :=
  ({ template with id := uid }, uid + 1)

/-- Embedding of `ToolboxItem.startDrag`: when not readonly, create a new
step from the template and start the drag-step behavior at the given
position; when readonly, do nothing. -/
def ToolboxItem.startDrag (s : ToolboxState) (template : Step)
    (position : Vector) : ToolboxState × Option DragStepBehavior :=
  if s.isReadonly = false then
    let r := createStep template s.nextUid
    ({ s with nextUid := r.2 }, some ⟨r.1, position⟩)
  else (s, none)

/-- Embedding of `ToolboxItem.onMousedown`: only the primary button
(button 0) starts the drag. -/
def ToolboxItem.onMousedown (s : ToolboxState) (template : Step)
    (button : Nat) (position : Vector) : ToolboxState × Option DragStepBehavior :=
  if button = 0 then ToolboxItem.startDrag s template position else (s, none)

/-- Embedding of `ToolboxItem.onTouchstart`: only an event with exactly
one touch starts the drag. -/
def ToolboxItem.onTouchstart (s : ToolboxState) (template : Step)
    (touches : Nat) (position : Vector) : ToolboxState × Option DragStepBehavior :=
  if touches = 1 then ToolboxItem.startDrag s template position else (s, none)

/-- C6: while readonly, initiating a toolbox drag via mouse-down or
touch-start leaves the state untouched (no clone, no uid consumed) and
starts no behavior. -/
theorem C6_readonly_drag_noop (s : ToolboxState) (template : Step)
    (position : Vector) (button touches : Nat) (h : s.isReadonly = true) :
    ToolboxItem.startDrag s template position = (s, none)
    ∧ ToolboxItem.onMousedown s template button position = (s, none)
    ∧ ToolboxItem.onTouchstart s template touches position = (s, none) := by
  have hs : ToolboxItem.startDrag s template position = (s, none) := by
    simp [ToolboxItem.startDrag, h]
  refine ⟨hs, ?_, ?_⟩
  · simp only [ToolboxItem.onMousedown]
    split <;> simp [hs]
  · simp only [ToolboxItem.onTouchstart]
    split <;> simp [hs]

/-- Witness for C6 on a concrete readonly state. -/
theorem C6_readonly_drag_noop_witness :
    (⟨true, 4⟩ : ToolboxState).isReadonly = true
    ∧ (ToolboxItem.startDrag ⟨true, 4⟩ ⟨0, 2, 3⟩ ⟨1, 1⟩ = (⟨true, 4⟩, none)
      ∧ ToolboxItem.onMousedown ⟨true, 4⟩ ⟨0, 2, 3⟩ 0 ⟨1, 1⟩ = (⟨true, 4⟩, none)
      ∧ ToolboxItem.onTouchstart ⟨true, 4⟩ ⟨0, 2, 3⟩ 1 ⟨1, 1⟩ = (⟨true, 4⟩, none)) :=
  ⟨rfl, C6_readonly_drag_noop ⟨true, 4⟩ ⟨0, 2, 3⟩ ⟨1, 1⟩ 0 1 rfl⟩

/-- C7: when not readonly, a primary-button mouse-down or a single-touch
start clones the template with a fresh id (advancing the uid counter,
template otherwise copied unchanged) and starts the drag behavior at the
pointer position; any other button or touch count starts nothing and
changes nothing. -/
theorem C7_toolbox_drag_start (s : ToolboxState) (template : Step)
    (position : Vector) (h : s.isReadonly = false) :
    ToolboxItem.onMousedown s template 0 position
        = ({ s with nextUid := s.nextUid + 1 },
            some ⟨{ template with id := s.nextUid }, position⟩)
    ∧ ToolboxItem.onTouchstart s template 1 position
        = ({ s with nextUid := s.nextUid + 1 },
            some ⟨{ template with id := s.nextUid }, position⟩)
    ∧ ((createStep template s.nextUid).1.id = s.nextUid
      ∧ (createStep template s.nextUid).1.type = template.type
      ∧ (createStep template s.nextUid).1.properties = template.properties
      ∧ (createStep template s.nextUid).2 = s.nextUid + 1)
    ∧ (∀ b, b ≠ 0 → ToolboxItem.onMousedown s template b position = (s, none))
    ∧ (∀ n, 1 < n → ToolboxItem.onTouchstart s template n position = (s, none)) := by
  refine ⟨?_, ?_, ⟨rfl, rfl, rfl, rfl⟩, ?_, ?_⟩
  · simp [ToolboxItem.onMousedown, ToolboxItem.startDrag, h, createStep]
  · simp [ToolboxItem.onTouchstart, ToolboxItem.startDrag, h, createStep]
  · intro b hb
    simp [ToolboxItem.onMousedown, hb]
  · intro n hn
    simp [ToolboxItem.onTouchstart, Nat.ne_of_gt hn]

/-- Witness for C7 on a concrete non-readonly state. -/
theorem C7_toolbox_drag_start_witness :
    (⟨false, 4⟩ : ToolboxState).isReadonly = false
    ∧ (ToolboxItem.onMousedown ⟨false, 4⟩ ⟨0, 2, 3⟩ 0 ⟨1, 1⟩
          = (⟨false, 5⟩, some ⟨⟨4, 2, 3⟩, ⟨1, 1⟩⟩)
      ∧ ToolboxItem.onTouchstart ⟨false, 4⟩ ⟨0, 2, 3⟩ 1 ⟨1, 1⟩
          = (⟨false, 5⟩, some ⟨⟨4, 2, 3⟩, ⟨1, 1⟩⟩)
      ∧ ((createStep ⟨0, 2, 3⟩ 4).1.id = 4
        ∧ (createStep ⟨0, 2, 3⟩ 4).1.type = (⟨0, 2, 3⟩ : Step).type
        ∧ (createStep ⟨0, 2, 3⟩ 4).1.properties = (⟨0, 2, 3⟩ : Step).properties
        ∧ (createStep ⟨0, 2, 3⟩ 4).2 = 4 + 1)
      ∧ (∀ b, b ≠ 0 → ToolboxItem.onMousedown ⟨false, 4⟩ ⟨0, 2, 3⟩ b ⟨1, 1⟩
          = (⟨false, 4⟩, none))
      ∧ (∀ n, 1 < n → ToolboxItem.onTouchstart ⟨false, 4⟩ ⟨0, 2, 3⟩ n ⟨1, 1⟩
          = (⟨false, 4⟩, none))) :=
  ⟨rfl, C7_toolbox_drag_start ⟨false, 4⟩ ⟨0, 2, 3⟩ ⟨1, 1⟩ rfl⟩

end SWD
